import Mathlib

/-!
Shallow embedding of the `twitter_snowflake` crate (`src/lib.rs`), in its
default (non-`float-safe`) cfg configuration.  Machine integers (`u64`,
`u128`) are modelled as `Nat`, with an explicit `% 2 ^ 64` at the
operations where a `u64` could overflow (the packing shifts and the
`sequence + 1` addition).  Clock reads are modelled as explicit inputs:
one `SystemTime::now().duration_since(UNIX_EPOCH)` read is an
`Option Nat` (`some m` is a successful read of `m` milliseconds as a
`u128`, `none` is a failed read), and a `generate` call consumes one
initial reading plus a finite trace of spin-wait iterations, each
carrying the `Instant`-based elapsed-milliseconds value observed by the
timeout check and the `SystemTime` reading of the re-sample.  A
`generate` result of `none` means the finite trace ended while the
spin-wait loop was still running.
-/

namespace Snow

/-- Constant `MIN_BITS` from `src/lib.rs`. -/
def MIN_BITS : Nat := 1

/-- Constant `TIMEOUT_MILLIS` from `src/lib.rs`. -/
def TIMEOUT_MILLIS : Nat := 1000

/-- Constant `WORKER_ID_BITS` from `src/lib.rs` (non-`float-safe` cfg). -/
def WORKER_ID_BITS : Nat := 10

/-- Constant `EPOCH_MILLIS` from `src/lib.rs` (2024-01-01 00:00:00.000). -/
def EPOCH_MILLIS : Nat := 1704038400000

/-- Constant `TIMESTAMP_BITS` from `src/lib.rs` (non-`float-safe` cfg). -/
def TIMESTAMP_BITS : Nat := 41

/-- Constant `SIGN_BITS` from `src/lib.rs` (non-`float-safe` cfg). -/
def SIGN_BITS : Nat := 1

/-- Constant `MAX_ADJUSTABLE_BITS = 64 - SIGN_BITS - TIMESTAMP_BITS` from `src/lib.rs`. -/
def MAX_ADJUSTABLE_BITS : Nat := 64 - SIGN_BITS - TIMESTAMP_BITS

/-- Modulus of `u64` arithmetic. -/
def U64_MOD : Nat := 2 ^ 64

/-- The `SnowflakeError` enum from `src/lib.rs`. -/
inductive SnowflakeError where
  | ArgumentError (msg : String)
  | ClockMoveBackwards
  | WaitForNextPeriodTimeout
  | InvalidEpoch
  | FailedConvertToMillis
deriving DecidableEq, Repr

deriving instance DecidableEq for Except

/-- The `Snowflake` struct from `src/lib.rs`; every `u64` field is a `Nat`,
the `Option<u128>` timeout is an `Option Nat`. -/
structure Snowflake where
  epoch : Nat
  last_timestamp : Nat
  worker_id : Nat
  sequence : Nat
  timeout_millis : Option Nat
  max_sequence : Nat
  timestamp_shift : Nat
  worker_id_shift : Nat
deriving DecidableEq, Repr

/-- Model of `Snowflake::timestamp_millis`: `sys` is the outcome of
`SystemTime::now().duration_since(UNIX_EPOCH)` (`none` = `Err`), already
converted with `as_millis()` to a `u128` value.  The `try_into::<u64>()`
fails exactly when the value does not fit in a `u64`. -/
def timestamp_millis (sys : Option Nat) : Except SnowflakeError Nat :=
  match sys with
  | none => .error .ClockMoveBackwards
  | some m => if m < U64_MOD then .ok m else .error .FailedConvertToMillis

/-- Model of `Snowflake::current_timestamp_millis_since_epoch`. -/
def current_timestamp_millis_since_epoch (epoch : Nat) (sys : Option Nat) :
    Except SnowflakeError Nat :=
  match timestamp_millis sys with
  | .error e => .error e
  | .ok now => if now < epoch then .error .ClockMoveBackwards else .ok (now - epoch)

/-- The shift-and-or packing expression of `Snowflake::generate`, in `u64`
arithmetic: each shift result is reduced `% 2 ^ 64`; the bitwise ors of
values below `2 ^ 64` stay below `2 ^ 64`. -/
def pack (g : Snowflake) (ts seq : Nat) : Nat :=
  (ts <<< g.timestamp_shift) % U64_MOD |||
    (g.worker_id <<< g.worker_id_shift) % U64_MOD ||| seq

/-- One iteration of the spin-wait loop inside `Snowflake::generate`:
`elapsed` is `Instant::now().duration_since(timeout_start).as_millis()`
as observed by the timeout check of that iteration, `reading` is the
`SystemTime` reading consumed by the re-sample of that iteration. -/
structure SpinSample where
  elapsed : Nat
  reading : Option Nat
deriving DecidableEq, Repr

/-- The clock inputs consumed by one `generate` call. -/
structure GenInput where
  initial : Option Nat
  spin : List SpinSample
deriving DecidableEq, Repr

/-- The timeout test of one spin iteration:
`Instant::now().duration_since(timeout_start).as_millis() > timeout_millis`,
performed only when a timeout is configured. -/
def timedOut (timeout_millis : Option Nat) (elapsed : Nat) : Bool :=
  match timeout_millis with
  | some t => t < elapsed
  | none => false

/-- The re-sample of one spin iteration: `now` is replaced only when
`current_timestamp_millis_since_epoch` succeeds (`if let Ok(..)`). -/
def resample (epoch : Nat) (sys : Option Nat) (now : Nat) : Nat :=
  match current_timestamp_millis_since_epoch epoch sys with
  | .ok v => v
  | .error _ => now

/-- The `while now <= self.last_timestamp` spin-wait loop of
`Snowflake::generate`, run over a finite trace of iterations; `none`
means the trace ended with the loop still spinning. -/
def spinWait (g : Snowflake) : List SpinSample → Nat → Option (Except SnowflakeError Nat)
  | samples, now =>
    if g.last_timestamp < now then some (.ok now)
    else
      match samples with
      | [] => none
      | s :: rest =>
        if timedOut g.timeout_millis s.elapsed then
          some (.error .WaitForNextPeriodTimeout)
        else
          spinWait g rest (resample g.epoch s.reading now)

/-- The `(self.sequence + 1) & self.max_sequence` expression used by both
the `Ordering::Less` and the `Ordering::Equal` arm of `generate` (the
`u64` addition is reduced `% 2 ^ 64`). -/
def possible_sequence (g : Snowflake) : Nat :=
  ((g.sequence + 1) % U64_MOD) &&& g.max_sequence

/-- The body of `Snowflake::generate` after the initial clock read
(the `match now.cmp(&self.last_timestamp)` and the common tail).
Returns the updated generator together with the `Result`; `none` means
the spin-wait consumed the whole finite trace. -/
def generateWith (g : Snowflake) (now : Nat) (spin : List SpinSample) :
    Option (Snowflake × Except SnowflakeError Nat) :=
  if now < g.last_timestamp then
    -- Ordering::Less — the clock has moved backwards
    if 0 < possible_sequence g then
      some ({ g with sequence := possible_sequence g },
        .ok (pack g g.last_timestamp (possible_sequence g)))
    else
      some (g, .error .ClockMoveBackwards)
  else if now = g.last_timestamp then
    -- Ordering::Equal — same time period, increase the sequence
    if possible_sequence g = 0 then
      match spinWait { g with sequence := possible_sequence g } spin now with
      | none => none
      | some (.error e) => some ({ g with sequence := possible_sequence g }, .error e)
      | some (.ok now2) =>
        some ({ g with sequence := possible_sequence g, last_timestamp := now2 },
          .ok (pack g now2 (possible_sequence g)))
    else
      some ({ g with sequence := possible_sequence g, last_timestamp := now },
        .ok (pack g now (possible_sequence g)))
  else
    -- Ordering::Greater — new time period, reset the sequence
    some ({ g with sequence := 0, last_timestamp := now }, .ok (pack g now 0))

/-- Model of `Snowflake::generate`: one initial clock read, then the
comparison state machine. -/
def generate (g : Snowflake) (inp : GenInput) :
    Option (Snowflake × Except SnowflakeError Nat) :=
  match current_timestamp_millis_since_epoch g.epoch inp.initial with
  | .error e => some (g, .error e)
  | .ok now => generateWith g now inp.spin

/-- The argument-error message of the `worker_id_bits` range check
(mirrors the `format!` string in `with_config`). -/
def invalidBitsMsg (worker_id_bits : Nat) : String :=
  "invalid worker id bits(=" ++ toString worker_id_bits ++
    "), expected worker id bits ∈ [" ++ toString MIN_BITS ++ "," ++
    toString MAX_ADJUSTABLE_BITS ++ ")"

/-- The argument-error message of the `worker_id` range check
(mirrors the `format!` string in `with_config`). -/
def invalidWorkerIdMsg (worker_id max_worker_id : Nat) : String :=
  "invalid worker id(=" ++ toString worker_id ++
    "), expected worker id ∈ [0," ++ toString max_worker_id ++ "]"

/-- Model of `Snowflake::with_config`; `sys` is the `SystemTime` reading
consumed by the epoch validation (step performed only when the two
argument checks pass). -/
def with_config (worker_id : Nat) (worker_id_bits : Option Nat)
    (timeout_millis : Option Nat) (epoch : Option Nat) (sys : Option Nat) :
    Except SnowflakeError Snowflake :=
  let wib := worker_id_bits.getD WORKER_ID_BITS
  if ¬ (MIN_BITS ≤ wib ∧ wib < MAX_ADJUSTABLE_BITS) then
    .error (.ArgumentError (invalidBitsMsg wib))
  else
    let sequence_bits := MAX_ADJUSTABLE_BITS - wib
    -- `1u64 << wib` cannot overflow: the guard gives `wib < 22`
    let max_worker_id := (1 <<< wib) - 1
    let max_sequence := (1 <<< sequence_bits) - 1
    let worker_id_shift := sequence_bits
    let timestamp_shift := wib + sequence_bits
    if max_worker_id < worker_id then
      .error (.ArgumentError (invalidWorkerIdMsg worker_id max_worker_id))
    else
      let ep := epoch.getD EPOCH_MILLIS
      match timestamp_millis sys with
      | .error e => .error e
      | .ok nowAbs =>
        if nowAbs ≤ ep then .error .InvalidEpoch
        else
          .ok { epoch := ep, last_timestamp := 0, worker_id := worker_id,
                sequence := 0, timeout_millis := timeout_millis,
                max_sequence := max_sequence, timestamp_shift := timestamp_shift,
                worker_id_shift := worker_id_shift }

/-- The `SnowflakeBuilder` struct from `src/lib.rs`. -/
structure SnowflakeBuilder where
  worker_id : Nat
  worker_id_bits : Option Nat
  timeout_millis : Option Nat
  epoch : Option Nat
deriving DecidableEq, Repr

/-- Model of `Snowflake::builder`. -/
def Snowflake.builder : SnowflakeBuilder :=
  { worker_id := 0, worker_id_bits := some WORKER_ID_BITS,
    timeout_millis := some TIMEOUT_MILLIS, epoch := some EPOCH_MILLIS }

/-- Model of `SnowflakeBuilder::with_worker_id`. -/
def SnowflakeBuilder.with_worker_id (b : SnowflakeBuilder) (worker_id : Nat) :
    SnowflakeBuilder :=
  { b with worker_id := worker_id }

/-- Model of `SnowflakeBuilder::with_worker_id_bits`. -/
def SnowflakeBuilder.with_worker_id_bits (b : SnowflakeBuilder) (worker_id_bits : Nat) :
    SnowflakeBuilder :=
  { b with worker_id_bits := some worker_id_bits }

/-- Model of `SnowflakeBuilder::with_timeout_millis`. -/
def SnowflakeBuilder.with_timeout_millis (b : SnowflakeBuilder) (timeout_millis : Nat) :
    SnowflakeBuilder :=
  { b with timeout_millis := some timeout_millis }

/-- Model of `SnowflakeBuilder::with_epoch`. -/
def SnowflakeBuilder.with_epoch (b : SnowflakeBuilder) (epoch : Nat) :
    SnowflakeBuilder :=
  { b with epoch := some epoch }

/-- Model of `SnowflakeBuilder::build`. -/
def SnowflakeBuilder.build (b : SnowflakeBuilder) (sys : Option Nat) :
    Except SnowflakeError Snowflake :=
  with_config b.worker_id b.worker_id_bits b.timeout_millis b.epoch sys

/-- Model of `Snowflake::new`. -/
def Snowflake.new (worker_id : Nat) (sys : Option Nat) :
    Except SnowflakeError Snowflake :=
  ((Snowflake.builder).with_worker_id worker_id).build sys

/-- Run a sequence of `generate` calls, recording the generated IDs;
the run is `some` only when every call succeeds. -/
def runGen (g : Snowflake) : List GenInput → Option (Snowflake × List Nat)
  | [] => some (g, [])
  | i :: is =>
    match generate g i with
    | some (g1, .ok id) =>
      match runGen g1 is with
      | some (g2, ids) => some (g2, id :: ids)
      | none => none
    | _ => none

/-- Well-formedness of a generator's layout, relative to the
`worker_id_bits` value `wib` it was constructed with: exactly the shape
established by `with_config`, plus the `sequence` range invariant. -/
structure WF (g : Snowflake) (wib : Nat) : Prop where
  wib_lo : MIN_BITS ≤ wib
  wib_hi : wib < MAX_ADJUSTABLE_BITS
  shift_w : g.worker_id_shift = MAX_ADJUSTABLE_BITS - wib
  shift_t : g.timestamp_shift = MAX_ADJUSTABLE_BITS
  maxseq : g.max_sequence = 2 ^ (MAX_ADJUSTABLE_BITS - wib) - 1
  wid_lt : g.worker_id < 2 ^ wib
  seq_le : g.sequence ≤ g.max_sequence

/-- A clock reading keeps the elapsed timestamp inside the timestamp bit
field whenever it succeeds. -/
def nowFitsB (epoch : Nat) (sys : Option Nat) : Bool :=
  match current_timestamp_millis_since_epoch epoch sys with
  | .ok v => decide (v < 2 ^ TIMESTAMP_BITS)
  | .error _ => true

/-- All clock readings of one `generate` input fit the timestamp field. -/
def inputFits (epoch : Nat) (i : GenInput) : Bool :=
  nowFitsB epoch i.initial && i.spin.all fun s => nowFitsB epoch s.reading

/-- The arithmetic value of the ID a generator's current
`(last_timestamp, worker_id, sequence)` state packs to, used to phrase
monotonicity: every successful call emits exactly the key of its
post-state. -/
def stateKey (g : Snowflake) : Nat :=
  g.last_timestamp * 2 ^ 22 + g.worker_id * 2 ^ g.worker_id_shift + g.sequence

/-- A concrete generator with the default 41/10/12 layout (worker 1,
epoch 0, the default 1000 ms timeout), used to instantiate theorems. -/
def gDemo : Snowflake :=
  { epoch := 0, last_timestamp := 0, worker_id := 1, sequence := 0,
    timeout_millis := some 1000, max_sequence := 4095, timestamp_shift := 22,
    worker_id_shift := 12 }

/-- `gDemo` after exhausting the sequence space of tick 5. -/
def gFull : Snowflake :=
  { gDemo with last_timestamp := 5, sequence := 4095 }

/-! ## Helper lemmas -/

lemma spinWait_eq (g : Snowflake) (samples : List SpinSample) (now : Nat) :
    spinWait g samples now =
      if g.last_timestamp < now then some (.ok now)
      else
        match samples with
        | [] => none
        | s :: rest =>
          if timedOut g.timeout_millis s.elapsed then
            some (.error .WaitForNextPeriodTimeout)
          else spinWait g rest (resample g.epoch s.reading now) := by
  cases samples <;> rfl

lemma timedOut_eq_true_iff {tm : Option Nat} {el : Nat} :
    timedOut tm el = true ↔ ∃ t, tm = some t ∧ t < el := by
  cases tm <;> simp [timedOut]

lemma spinWait_ok_gt {g : Snowflake} {samples : List SpinSample} {now v : Nat}
    (h : spinWait g samples now = some (.ok v)) : g.last_timestamp < v := by
  induction samples generalizing now with
  | nil =>
    rw [spinWait_eq] at h
    by_cases hlt : g.last_timestamp < now
    · simp only [if_pos hlt, Option.some.injEq, Except.ok.injEq] at h
      exact h ▸ hlt
    · simp [if_neg hlt] at h
  | cons s rest ih =>
    rw [spinWait_eq] at h
    by_cases hlt : g.last_timestamp < now
    · simp only [if_pos hlt, Option.some.injEq, Except.ok.injEq] at h
      exact h ▸ hlt
    · simp only [if_neg hlt] at h
      cases ht : timedOut g.timeout_millis s.elapsed
      · simp only [ht, Bool.false_eq_true, if_false] at h
        exact ih h
      · simp [ht] at h

lemma spinWait_ok_source {g : Snowflake} {samples : List SpinSample} {now v : Nat}
    (h : spinWait g samples now = some (.ok v)) :
    v = now ∨
      ∃ s ∈ samples, current_timestamp_millis_since_epoch g.epoch s.reading = .ok v := by
  induction samples generalizing now with
  | nil =>
    rw [spinWait_eq] at h
    by_cases hlt : g.last_timestamp < now
    · simp only [if_pos hlt, Option.some.injEq, Except.ok.injEq] at h
      exact Or.inl h.symm
    · simp [if_neg hlt] at h
  | cons s rest ih =>
    rw [spinWait_eq] at h
    by_cases hlt : g.last_timestamp < now
    · simp only [if_pos hlt, Option.some.injEq, Except.ok.injEq] at h
      exact Or.inl h.symm
    · simp only [if_neg hlt] at h
      cases ht : timedOut g.timeout_millis s.elapsed
      · simp only [ht, Bool.false_eq_true, if_false] at h
        rcases ih h with hh | ⟨s', hs', hc⟩
        · unfold resample at hh
          cases hc2 : current_timestamp_millis_since_epoch g.epoch s.reading with
          | error e => rw [hc2] at hh; exact Or.inl hh
          | ok u =>
            rw [hc2] at hh
            exact Or.inr ⟨s, List.mem_cons_self _ _, hh ▸ hc2⟩
        · exact Or.inr ⟨s', List.mem_cons_of_mem _ hs', hc⟩
      · simp [ht] at h

lemma spinWait_error_inv {g : Snowflake} {samples : List SpinSample} {now : Nat}
    {e : SnowflakeError} (h : spinWait g samples now = some (.error e)) :
    e = .WaitForNextPeriodTimeout ∧
      ∃ t, g.timeout_millis = some t ∧ ∃ s ∈ samples, t < s.elapsed := by
  induction samples generalizing now with
  | nil =>
    rw [spinWait_eq] at h
    by_cases hlt : g.last_timestamp < now <;> simp [hlt] at h
  | cons s rest ih =>
    rw [spinWait_eq] at h
    by_cases hlt : g.last_timestamp < now
    · simp [hlt] at h
    · simp only [if_neg hlt] at h
      cases ht : timedOut g.timeout_millis s.elapsed
      · simp only [ht, Bool.false_eq_true, if_false] at h
        obtain ⟨he, t, htm, s', hs', hlt'⟩ := ih h
        exact ⟨he, t, htm, s', List.mem_cons_of_mem _ hs', hlt'⟩
      · simp only [ht, if_true] at h
        obtain ⟨t, htm, hlt'⟩ := timedOut_eq_true_iff.mp ht
        simp only [Option.some.injEq, Except.error.injEq] at h
        exact ⟨h.symm, t, htm, s, List.mem_cons_self _ _, hlt'⟩

lemma or_add_of_lt {n a b : Nat} (hb : b < 2 ^ n) : 2 ^ n * a ||| b = 2 ^ n * a + b :=
  (Nat.mul_add_lt_is_or hb a).symm

lemma WF.sb_add {g : Snowflake} {wib : Nat} (hwf : WF g wib) :
    wib + g.worker_id_shift = 22 := by
  have h1 := hwf.wib_lo
  have h2 := hwf.wib_hi
  have h3 := hwf.shift_w
  simp only [MIN_BITS] at h1
  simp only [MAX_ADJUSTABLE_BITS, SIGN_BITS, TIMESTAMP_BITS] at h2 h3
  omega

lemma WF.pow_split {g : Snowflake} {wib : Nat} (hwf : WF g wib) :
    2 ^ wib * 2 ^ g.worker_id_shift = 2 ^ 22 := by
  rw [← pow_add, hwf.sb_add]

lemma WF.maxseq_eq {g : Snowflake} {wib : Nat} (hwf : WF g wib) :
    g.max_sequence = 2 ^ g.worker_id_shift - 1 := by
  rw [hwf.maxseq, hwf.shift_w]

lemma WF.seq_lt {g : Snowflake} {wib : Nat} (hwf : WF g wib) {seq : Nat}
    (h : seq ≤ g.max_sequence) : seq < 2 ^ g.worker_id_shift := by
  have hm := hwf.maxseq_eq
  have hp : 0 < 2 ^ g.worker_id_shift := pow_pos (by norm_num) _
  omega

lemma WF.field_lt {g : Snowflake} {wib : Nat} (hwf : WF g wib) {seq : Nat}
    (h : seq ≤ g.max_sequence) :
    g.worker_id * 2 ^ g.worker_id_shift + seq < 2 ^ 22 := by
  have hs := hwf.seq_lt h
  have hp := hwf.pow_split
  have h1 : g.worker_id * 2 ^ g.worker_id_shift ≤ (2 ^ wib - 1) * 2 ^ g.worker_id_shift :=
    Nat.mul_le_mul_right _ (by have := hwf.wid_lt; omega)
  rw [Nat.sub_mul, one_mul, hp] at h1
  have hp2 : 0 < 2 ^ g.worker_id_shift := pow_pos (by norm_num) _
  have hPle : 2 ^ g.worker_id_shift ≤ 2 ^ 22 := by
    calc 2 ^ g.worker_id_shift ≤ 2 ^ wib * 2 ^ g.worker_id_shift :=
          Nat.le_mul_of_pos_left _ (pow_pos (by norm_num) _)
    _ = 2 ^ 22 := hp
  omega

lemma pack_decomp {g : Snowflake} {wib : Nat} (hwf : WF g wib) (ts seq : Nat)
    (hseq : seq ≤ g.max_sequence) :
    pack g ts seq =
      (ts % 2 ^ 42) * 2 ^ 22 + g.worker_id * 2 ^ g.worker_id_shift + seq := by
  have hsplit := hwf.pow_split
  have hseqlt := hwf.seq_lt hseq
  have hwfield : g.worker_id * 2 ^ g.worker_id_shift < 2 ^ 22 := by
    have := hwf.field_lt (Nat.zero_le g.max_sequence)
    have := hwf.field_lt hseq
    omega
  have hA : (ts <<< g.timestamp_shift) % U64_MOD = (ts % 2 ^ 42) * 2 ^ 22 := by
    rw [hwf.shift_t]
    show (ts <<< 22) % U64_MOD = _
    rw [Nat.shiftLeft_eq, U64_MOD, show (2:Nat) ^ 64 = 2 ^ 42 * 2 ^ 22 by norm_num,
      Nat.mul_mod_mul_right]
  have hB : (g.worker_id <<< g.worker_id_shift) % U64_MOD
      = g.worker_id * 2 ^ g.worker_id_shift := by
    rw [Nat.shiftLeft_eq]
    exact Nat.mod_eq_of_lt (lt_trans hwfield (by norm_num [U64_MOD]))
  have hC : (ts % 2 ^ 42) * 2 ^ 22 ||| g.worker_id * 2 ^ g.worker_id_shift
      = (ts % 2 ^ 42) * 2 ^ 22 + g.worker_id * 2 ^ g.worker_id_shift := by
    rw [mul_comm (ts % 2 ^ 42) (2 ^ 22)]
    exact or_add_of_lt hwfield
  have hrepr : (ts % 2 ^ 42) * 2 ^ 22 + g.worker_id * 2 ^ g.worker_id_shift
      = 2 ^ g.worker_id_shift * ((ts % 2 ^ 42) * 2 ^ wib + g.worker_id) := by
    rw [← hsplit]; ring
  have hD : (ts % 2 ^ 42) * 2 ^ 22 + g.worker_id * 2 ^ g.worker_id_shift ||| seq
      = (ts % 2 ^ 42) * 2 ^ 22 + g.worker_id * 2 ^ g.worker_id_shift + seq := by
    rw [hrepr, or_add_of_lt hseqlt, ← hrepr]
  unfold pack
  rw [hA, hB, hC, hD]

lemma pack_eq {g : Snowflake} {wib : Nat} (hwf : WF g wib) {ts : Nat} (seq : Nat)
    (hts : ts < 2 ^ TIMESTAMP_BITS) (hseq : seq ≤ g.max_sequence) :
    pack g ts seq = ts * 2 ^ 22 + g.worker_id * 2 ^ g.worker_id_shift + seq := by
  rw [pack_decomp hwf ts seq hseq,
    Nat.mod_eq_of_lt (lt_trans hts (by norm_num [TIMESTAMP_BITS]))]

lemma pack_worker {g : Snowflake} {wib : Nat} (hwf : WF g wib) (ts seq : Nat)
    (hseq : seq ≤ g.max_sequence) :
    (pack g ts seq) >>> g.worker_id_shift &&& (2 ^ wib - 1) = g.worker_id := by
  rw [pack_decomp hwf ts seq hseq, Nat.and_pow_two_sub_one_eq_mod,
    Nat.shiftRight_eq_div_pow]
  have hsplit := hwf.pow_split
  have hseqlt := hwf.seq_lt hseq
  have hrepr : (ts % 2 ^ 42) * 2 ^ 22 + g.worker_id * 2 ^ g.worker_id_shift + seq
      = 2 ^ g.worker_id_shift * ((ts % 2 ^ 42) * 2 ^ wib + g.worker_id) + seq := by
    rw [← hsplit]; ring
  rw [hrepr, Nat.mul_add_div (pow_pos (by norm_num) _), Nat.div_eq_of_lt hseqlt,
    Nat.add_zero, mul_comm (ts % 2 ^ 42) (2 ^ wib), Nat.mul_add_mod,
    Nat.mod_eq_of_lt hwf.wid_lt]

lemma possible_sequence_eq {g : Snowflake} {wib : Nat} (hwf : WF g wib) :
    possible_sequence g = (g.sequence + 1) % 2 ^ g.worker_id_shift := by
  unfold possible_sequence
  have hseqlt := hwf.seq_lt hwf.seq_le
  have hsb : g.worker_id_shift ≤ 21 := by
    have h1 := hwf.sb_add
    have h2 := hwf.wib_lo
    simp only [MIN_BITS] at h2
    omega
  have h1 : g.sequence + 1 < U64_MOD := by
    have ha : (2:Nat) ^ g.worker_id_shift ≤ 2 ^ 21 :=
      Nat.pow_le_pow_right (by norm_num) hsb
    have hb : (2:Nat) ^ 21 < 2 ^ 64 := by norm_num
    simp only [U64_MOD]
    omega
  rw [Nat.mod_eq_of_lt h1, hwf.maxseq_eq, Nat.and_pow_two_sub_one_eq_mod]

lemma possible_sequence_cases {g : Snowflake} {wib : Nat} (hwf : WF g wib) :
    (g.sequence = g.max_sequence ∧ possible_sequence g = 0) ∨
    (g.sequence < g.max_sequence ∧ possible_sequence g = g.sequence + 1) := by
  have he := possible_sequence_eq hwf
  have hm := hwf.maxseq_eq
  have hs := hwf.seq_le
  have hp : 0 < 2 ^ g.worker_id_shift := pow_pos (by norm_num) _
  rcases eq_or_lt_of_le hs with heq | hlt
  · refine Or.inl ⟨heq, ?_⟩
    rw [he, heq, hm, show 2 ^ g.worker_id_shift - 1 + 1 = 2 ^ g.worker_id_shift by omega,
      Nat.mod_self]
  · exact Or.inr ⟨hlt, by rw [he]; exact Nat.mod_eq_of_lt (by omega)⟩

lemma possible_sequence_le (g : Snowflake) : possible_sequence g ≤ g.max_sequence :=
  Nat.and_le_right

lemma generate_init_error {g : Snowflake} {inp : GenInput} {e : SnowflakeError}
    (hc : current_timestamp_millis_since_epoch g.epoch inp.initial = .error e) :
    generate g inp = some (g, .error e) := by
  unfold generate
  rw [hc]

lemma generate_init_ok {g : Snowflake} {inp : GenInput} {now : Nat}
    (hc : current_timestamp_millis_since_epoch g.epoch inp.initial = .ok now) :
    generate g inp = generateWith g now inp.spin := by
  unfold generate
  rw [hc]

lemma generate_some_inv {g : Snowflake} {inp : GenInput} {g' : Snowflake}
    {r : Except SnowflakeError Nat} (h : generate g inp = some (g', r)) :
    (∃ e, current_timestamp_millis_since_epoch g.epoch inp.initial = .error e ∧
      g' = g ∧ r = .error e) ∨
    (∃ now, current_timestamp_millis_since_epoch g.epoch inp.initial = .ok now ∧
      generateWith g now inp.spin = some (g', r)) := by
  unfold generate at h
  cases hc : current_timestamp_millis_since_epoch g.epoch inp.initial with
  | error e =>
    simp only [hc, Option.some.injEq, Prod.mk.injEq] at h
    exact Or.inl ⟨e, rfl, h.1.symm, h.2.symm⟩
  | ok now =>
    simp only [hc] at h
    exact Or.inr ⟨now, rfl, h⟩

lemma generateWith_shape {g : Snowflake} {now : Nat} {spin : List SpinSample}
    {g' : Snowflake} {r : Except SnowflakeError Nat}
    (h : generateWith g now spin = some (g', r)) :
    (now < g.last_timestamp ∧ 0 < possible_sequence g ∧
      g' = { g with sequence := possible_sequence g } ∧
      r = .ok (pack g g.last_timestamp (possible_sequence g))) ∨
    (now < g.last_timestamp ∧ possible_sequence g = 0 ∧ g' = g ∧
      r = .error .ClockMoveBackwards) ∨
    (now = g.last_timestamp ∧ 0 < possible_sequence g ∧
      g' = { g with sequence := possible_sequence g, last_timestamp := now } ∧
      r = .ok (pack g now (possible_sequence g))) ∨
    (now = g.last_timestamp ∧ possible_sequence g = 0 ∧
      ∃ v, spinWait { g with sequence := 0 } spin now = some (.ok v) ∧
        g' = { g with sequence := 0, last_timestamp := v } ∧ r = .ok (pack g v 0)) ∨
    (now = g.last_timestamp ∧ possible_sequence g = 0 ∧
      ∃ e, spinWait { g with sequence := 0 } spin now = some (.error e) ∧
        g' = { g with sequence := 0 } ∧ r = .error e) ∨
    (g.last_timestamp < now ∧
      g' = { g with sequence := 0, last_timestamp := now } ∧
      r = .ok (pack g now 0)) := by
  unfold generateWith at h
  rcases Nat.lt_trichotomy now g.last_timestamp with hlt | heq | hgt
  · rw [if_pos hlt] at h
    by_cases hc : 0 < possible_sequence g
    · rw [if_pos hc] at h
      simp only [Option.some.injEq, Prod.mk.injEq] at h
      exact Or.inl ⟨hlt, hc, h.1.symm, h.2.symm⟩
    · rw [if_neg hc] at h
      simp only [Option.some.injEq, Prod.mk.injEq] at h
      exact Or.inr (Or.inl ⟨hlt, by omega, h.1.symm, h.2.symm⟩)
  · rw [if_neg (by omega), if_pos heq] at h
    by_cases hc : possible_sequence g = 0
    · rw [if_pos hc, hc] at h
      cases hs : spinWait { g with sequence := 0 } spin now with
      | none => rw [hs] at h; simp at h
      | some res =>
        rw [hs] at h
        cases res with
        | error e =>
          simp only [Option.some.injEq, Prod.mk.injEq] at h
          exact Or.inr (Or.inr (Or.inr (Or.inr (Or.inl
            ⟨heq, hc, e, rfl, h.1.symm, h.2.symm⟩))))
        | ok v =>
          simp only [Option.some.injEq, Prod.mk.injEq] at h
          exact Or.inr (Or.inr (Or.inr (Or.inl ⟨heq, hc, v, rfl, h.1.symm, h.2.symm⟩)))
    · rw [if_neg hc] at h
      simp only [Option.some.injEq, Prod.mk.injEq] at h
      exact Or.inr (Or.inr (Or.inl ⟨heq, Nat.pos_of_ne_zero hc, h.1.symm, h.2.symm⟩))
  · rw [if_neg (by omega), if_neg (by omega)] at h
    simp only [Option.some.injEq, Prod.mk.injEq] at h
    exact Or.inr (Or.inr (Or.inr (Or.inr (Or.inr ⟨hgt, h.1.symm, h.2.symm⟩))))

lemma generate_ok_pack {g : Snowflake} {inp : GenInput} {g' : Snowflake} {id : Nat}
    (h : generate g inp = some (g', .ok id)) :
    ∃ ts seq, seq ≤ g.max_sequence ∧ id = pack g ts seq := by
  rcases generate_some_inv h with ⟨e, _, _, hr⟩ | ⟨now, hc, hw⟩
  · exact absurd hr (by simp)
  · rcases generateWith_shape hw with
      ⟨_, _, _, hr⟩ | ⟨_, _, _, hr⟩ | ⟨_, _, _, hr⟩ | ⟨_, _, v, _, _, hr⟩ |
      ⟨_, _, e, _, _, hr⟩ | ⟨_, _, hr⟩
    · exact ⟨g.last_timestamp, possible_sequence g, possible_sequence_le g, by
        simpa using hr⟩
    · exact absurd hr (by simp)
    · exact ⟨now, possible_sequence g, possible_sequence_le g, by simpa using hr⟩
    · exact ⟨v, 0, Nat.zero_le _, by simpa using hr⟩
    · exact absurd hr (by simp)
    · exact ⟨now, 0, Nat.zero_le _, by simpa using hr⟩

lemma nowFitsB_spec {epoch : Nat} {sys : Option Nat} {v : Nat}
    (hb : nowFitsB epoch sys = true)
    (h : current_timestamp_millis_since_epoch epoch sys = .ok v) :
    v < 2 ^ TIMESTAMP_BITS := by
  unfold nowFitsB at hb
  rw [h] at hb
  simpa using hb

lemma WF.of_seq {g : Snowflake} {wib : Nat} (hwf : WF g wib) {x : Nat}
    (hx : x ≤ g.max_sequence) : WF { g with sequence := x } wib :=
  { wib_lo := hwf.wib_lo, wib_hi := hwf.wib_hi, shift_w := hwf.shift_w,
    shift_t := hwf.shift_t, maxseq := hwf.maxseq, wid_lt := hwf.wid_lt,
    seq_le := hx }

lemma WF.of_seq_last {g : Snowflake} {wib : Nat} (hwf : WF g wib) {x t : Nat}
    (hx : x ≤ g.max_sequence) : WF { g with sequence := x, last_timestamp := t } wib :=
  { wib_lo := hwf.wib_lo, wib_hi := hwf.wib_hi, shift_w := hwf.shift_w,
    shift_t := hwf.shift_t, maxseq := hwf.maxseq, wid_lt := hwf.wid_lt,
    seq_le := hx }

lemma stateKey_lt_of_ts {g : Snowflake} {wib : Nat} (hwf : WF g wib)
    {g2 : Snowflake} (hw : g2.worker_id = g.worker_id)
    (hsh : g2.worker_id_shift = g.worker_id_shift)
    (hlt : g.last_timestamp < g2.last_timestamp) : stateKey g < stateKey g2 := by
  have hf := hwf.field_lt hwf.seq_le
  have hA : (2:Nat) ^ 22 = 4194304 := by norm_num
  unfold stateKey
  rw [hw, hsh, hA]
  rw [hA] at hf
  have hmul : (g.last_timestamp + 1) * 4194304 ≤ g2.last_timestamp * 4194304 :=
    Nat.mul_le_mul_right _ (by omega)
  omega

lemma generate_ok_key {g : Snowflake} {wib : Nat} {inp : GenInput} {g' : Snowflake}
    {id : Nat} (hwf : WF g wib) (hfit : inputFits g.epoch inp = true)
    (hlast : g.last_timestamp < 2 ^ TIMESTAMP_BITS)
    (h : generate g inp = some (g', .ok id)) :
    WF g' wib ∧ g'.epoch = g.epoch ∧ g'.last_timestamp < 2 ^ TIMESTAMP_BITS ∧
      id = stateKey g' ∧ stateKey g < stateKey g' := by
  have hfits' : nowFitsB g.epoch inp.initial = true ∧
      (inp.spin.all fun s => nowFitsB g.epoch s.reading) = true := by
    have h0 := hfit
    unfold inputFits at h0
    rw [Bool.and_eq_true] at h0
    exact h0
  have hfit1 : nowFitsB g.epoch inp.initial = true := hfits'.1
  have hfit2 : ∀ s ∈ inp.spin, nowFitsB g.epoch s.reading = true := by
    have h2 := hfits'.2
    simpa [List.all_eq_true] using h2
  rcases generate_some_inv h with ⟨e, _, _, hr⟩ | ⟨now, hc, hw⟩
  · exact absurd hr (by simp)
  · have hnowfit : now < 2 ^ TIMESTAMP_BITS := nowFitsB_spec hfit1 hc
    rcases generateWith_shape hw with
      ⟨hlt, hpos, hg, hr⟩ | ⟨_, _, _, hr⟩ | ⟨heq, hpos, hg, hr⟩ |
      ⟨heq, hzero, v, hsp, hg, hr⟩ | ⟨_, _, e, _, _, hr⟩ | ⟨hgt, hg, hr⟩
    · -- Backward accepted: sequence carried forward, last_timestamp kept
      rcases possible_sequence_cases hwf with ⟨_, hps⟩ | ⟨hseq, hps⟩
      · omega
      have hle : possible_sequence g ≤ g.max_sequence := possible_sequence_le g
      subst hg
      refine ⟨hwf.of_seq hle, rfl, hlast, ?_, ?_⟩
      · have := pack_eq hwf (possible_sequence g) hlast hle
        simp only [Except.ok.injEq] at hr
        rw [hr, this]
        rfl
      · show stateKey g < stateKey { g with sequence := possible_sequence g }
        unfold stateKey
        simp only
        omega
    · exact absurd hr (by simp)
    · -- Equal, no wrap: sequence incremented within the same tick
      rcases possible_sequence_cases hwf with ⟨_, hps⟩ | ⟨hseq, hps⟩
      · omega
      have hle : possible_sequence g ≤ g.max_sequence := possible_sequence_le g
      subst hg
      refine ⟨hwf.of_seq_last hle, rfl, by simpa [← heq] using hnowfit, ?_, ?_⟩
      · have := pack_eq hwf (possible_sequence g) hnowfit hle
        simp only [Except.ok.injEq] at hr
        rw [hr, this]
        simp only [stateKey]
      · unfold stateKey
        simp only
        omega
    · -- Equal, wrap: spin-wait succeeded with a strictly larger tick
      have hvgt0 := spinWait_ok_gt hsp
      have hvgt : g.last_timestamp < v := hvgt0
      have hvfit : v < 2 ^ TIMESTAMP_BITS := by
        rcases spinWait_ok_source hsp with hvnow | ⟨s, hsmem, hsc⟩
        · omega
        · exact nowFitsB_spec (hfit2 s hsmem) hsc
      subst hg
      refine ⟨hwf.of_seq_last (Nat.zero_le _), rfl, hvfit, ?_, ?_⟩
      · have := pack_eq hwf 0 hvfit (Nat.zero_le _)
        simp only [Except.ok.injEq] at hr
        rw [hr, this]
        simp only [stateKey]
      · exact stateKey_lt_of_ts hwf rfl rfl hvgt
    · exact absurd hr (by simp)
    · -- Forward: fresh tick, sequence reset
      subst hg
      refine ⟨hwf.of_seq_last (Nat.zero_le _), rfl, hnowfit, ?_, ?_⟩
      · have := pack_eq hwf 0 hnowfit (Nat.zero_le _)
        simp only [Except.ok.injEq] at hr
        rw [hr, this]
        simp only [stateKey]
      · exact stateKey_lt_of_ts hwf rfl rfl hgt

lemma runGen_aux {wib : Nat} (is : List GenInput) :
    ∀ g g' ids, WF g wib → g.last_timestamp < 2 ^ TIMESTAMP_BITS →
      (∀ i ∈ is, inputFits g.epoch i = true) →
      runGen g is = some (g', ids) →
      (∀ id ∈ ids, stateKey g < id) ∧ List.Pairwise (· < ·) ids := by
  induction is with
  | nil =>
    intro g g' ids _ _ _ h
    unfold runGen at h
    simp only [Option.some.injEq, Prod.mk.injEq] at h
    obtain ⟨_, h2⟩ := h
    subst h2
    exact ⟨by simp, by simp⟩
  | cons i is ih =>
    intro g g' ids hwf hlt hfits h
    unfold runGen at h
    cases hg : generate g i with
    | none => rw [hg] at h; simp at h
    | some p =>
      obtain ⟨g1, r⟩ := p
      rw [hg] at h
      cases r with
      | error e => simp at h
      | ok id =>
        simp only [Option.some.injEq, Prod.mk.injEq] at h
        cases hr : runGen g1 is with
        | none => rw [hr] at h; simp at h
        | some q =>
          obtain ⟨g2, ids'⟩ := q
          rw [hr] at h
          simp only [Option.some.injEq, Prod.mk.injEq] at h
          obtain ⟨hg2, hids⟩ := h
          subst hids
          obtain ⟨hwf1, hep, hlt1, hkey, hinc⟩ :=
            generate_ok_key hwf (hfits i (List.mem_cons_self _ _)) hlt hg
          have hfits1 : ∀ j ∈ is, inputFits g1.epoch j = true := by
            intro j hj
            rw [hep]
            exact hfits j (List.mem_cons_of_mem _ hj)
          obtain ⟨hall, hpw⟩ := ih g1 g2 ids' hwf1 hlt1 hfits1 hr
          constructor
          · intro x hx
            rcases List.mem_cons.mp hx with hx1 | hx2
            · rw [hx1, hkey]; exact hinc
            · exact lt_trans hinc (hall x hx2)
          · rw [List.pairwise_cons]
            refine ⟨fun x hx => ?_, hpw⟩
            rw [hkey]
            exact hall x hx

/-! ## Claim theorems -/

/-- C1: for any single well-formed generator and any sequence of clock
readings under which every call succeeds (with each elapsed timestamp
small enough to fit the timestamp bit field), the returned `u64` values
are strictly increasing from call to call (`Chain'`/`Pairwise`), and
consequently no value is ever returned twice (`Nodup`). -/
theorem generate_monotonic_ids (g : Snowflake) (wib : Nat) (is : List GenInput)
    (g' : Snowflake) (ids : List Nat) (hwf : WF g wib)
    (hlast : g.last_timestamp < 2 ^ TIMESTAMP_BITS)
    (hfits : ∀ i ∈ is, inputFits g.epoch i = true)
    (h : runGen g is = some (g', ids)) :
    List.Chain' (· < ·) ids ∧ List.Pairwise (· < ·) ids ∧ ids.Nodup := by
  obtain ⟨-, hpw⟩ := runGen_aux is g g' ids hwf hlast hfits h
  exact ⟨List.chain'_iff_pairwise.mpr hpw, hpw,
    List.Pairwise.imp (fun hab => ne_of_lt hab) hpw⟩

/-- Witness for C1: three successful calls of the demo generator return
the strictly increasing IDs 20975616 < 20975617 < 25169920. -/
theorem generate_monotonic_ids_witness :
    List.Chain' (· < ·) ([20975616, 20975617, 25169920] : List Nat) ∧
    List.Pairwise (· < ·) ([20975616, 20975617, 25169920] : List Nat) ∧
    ([20975616, 20975617, 25169920] : List Nat).Nodup :=
  generate_monotonic_ids gDemo 10 [⟨some 5, []⟩, ⟨some 5, []⟩, ⟨some 6, []⟩]
    { gDemo with last_timestamp := 6, sequence := 0 } [20975616, 20975617, 25169920]
    (by constructor <;> decide) (by decide) (by decide) (by decide)

/-- C2: when the sampled timestamp is strictly below `last_timestamp`
(clock moved backwards) and the carried sequence
`(sequence + 1) & max_sequence` is nonzero, `generate` succeeds, sets
`sequence` to the candidate, changes no other field, and returns the ID
packed from `(last_timestamp, worker_id, candidate)`; when the candidate
wraps to 0 it fails with the clock-moved-backwards error and changes
nothing. -/
theorem generate_backward_path (g : Snowflake) (inp : GenInput) (now : Nat)
    (hc : current_timestamp_millis_since_epoch g.epoch inp.initial = .ok now)
    (hlt : now < g.last_timestamp) :
    (0 < possible_sequence g →
      generate g inp = some ({ g with sequence := possible_sequence g },
        .ok (pack g g.last_timestamp (possible_sequence g)))) ∧
    (possible_sequence g = 0 →
      generate g inp = some (g, .error .ClockMoveBackwards)) := by
  rw [generate_init_ok hc]
  unfold generateWith
  rw [if_pos hlt]
  constructor
  · intro h
    rw [if_pos h]
  · intro h
    rw [if_neg (by omega)]

/-- Witness for C2: a backward clock sample against `last_timestamp = 10`
carries the sequence from 3 to 4 and keeps `last_timestamp`. -/
theorem generate_backward_path_witness :
    generate { gDemo with last_timestamp := 10, sequence := 3 } ⟨some 5, []⟩ =
      some ({ { gDemo with last_timestamp := 10, sequence := 3 } with
                sequence := possible_sequence { gDemo with last_timestamp := 10, sequence := 3 } },
        .ok (pack { gDemo with last_timestamp := 10, sequence := 3 }
          ({ gDemo with last_timestamp := 10, sequence := 3 } : Snowflake).last_timestamp
          (possible_sequence { gDemo with last_timestamp := 10, sequence := 3 }))) :=
  (generate_backward_path { gDemo with last_timestamp := 10, sequence := 3 }
    ⟨some 5, []⟩ 5 (by decide) (by decide)).1 (by decide)

/-- C3: when the sampled timestamp equals `last_timestamp` and the
sequence wraps to 0, `generate` spin-waits: if the loop obtains a sample
strictly above `last_timestamp` it returns the ID packed from that new
tick with sequence 0 and sets `last_timestamp` to it; if it stops with an
error, that error is the wait-for-next-period timeout, it happens only
with a configured timeout some iteration exceeded, and no ID is
returned; with no timeout configured the loop never fails (a finite
trace either ends with the call still waiting or succeeds). -/
theorem generate_sequence_exhausted (g : Snowflake) (inp : GenInput) (now : Nat)
    (hc : current_timestamp_millis_since_epoch g.epoch inp.initial = .ok now)
    (heq : now = g.last_timestamp) (hwrap : possible_sequence g = 0) :
    (∀ v, spinWait { g with sequence := 0 } inp.spin now = some (.ok v) →
      g.last_timestamp < v ∧
      generate g inp = some ({ g with sequence := 0, last_timestamp := v },
        .ok (pack g v 0))) ∧
    (∀ e, spinWait { g with sequence := 0 } inp.spin now = some (.error e) →
      e = .WaitForNextPeriodTimeout ∧
      (∃ t, g.timeout_millis = some t ∧ ∃ s ∈ inp.spin, t < s.elapsed) ∧
      generate g inp = some ({ g with sequence := 0 },
        .error .WaitForNextPeriodTimeout)) ∧
    (g.timeout_millis = none →
      spinWait { g with sequence := 0 } inp.spin now = none ∨
      ∃ v, spinWait { g with sequence := 0 } inp.spin now = some (.ok v)) ∧
    (spinWait { g with sequence := 0 } inp.spin now = none →
      generate g inp = none) := by
  have hgen : generate g inp =
      match spinWait { g with sequence := 0 } inp.spin now with
      | none => none
      | some (.error e) => some ({ g with sequence := 0 }, .error e)
      | some (.ok now2) =>
        some ({ g with sequence := 0, last_timestamp := now2 }, .ok (pack g now2 0)) := by
    rw [generate_init_ok hc]
    unfold generateWith
    rw [if_neg (by omega), if_pos heq, if_pos hwrap, hwrap]
  refine ⟨?_, ?_, ?_, ?_⟩
  · intro v hv
    have hgt0 := spinWait_ok_gt hv
    refine ⟨hgt0, ?_⟩
    rw [hgen, hv]
  · intro e he
    obtain ⟨he1, t, htm, hs⟩ := spinWait_error_inv he
    have htm' : g.timeout_millis = some t := htm
    subst he1
    exact ⟨rfl, ⟨t, htm', hs⟩, by rw [hgen, he]⟩
  · intro hnone
    cases hs : spinWait { g with sequence := 0 } inp.spin now with
    | none => exact Or.inl rfl
    | some res =>
      cases res with
      | ok v => exact Or.inr ⟨v, rfl⟩
      | error e =>
        obtain ⟨-, t, htm, -⟩ := spinWait_error_inv hs
        have htm' : g.timeout_millis = some t := htm
        rw [hnone] at htm'
        cases htm'
  · intro hnone
    rw [hgen, hnone]

/-- Witness for C3: the exhausted demo generator at tick 5 spin-waits and
succeeds once the clock reaches tick 8. -/
theorem generate_sequence_exhausted_witness :
    gFull.last_timestamp < 8 ∧
    generate gFull ⟨some 5, [⟨1, some 8⟩]⟩ =
      some ({ gFull with sequence := 0, last_timestamp := 8 }, .ok (pack gFull 8 0)) :=
  (generate_sequence_exhausted gFull ⟨some 5, [⟨1, some 8⟩]⟩ 5 (by decide) (by decide)
    (by decide)).1 8 (by decide)

/-- Counterexample to C4 as stated: on the wait-timeout error path the
generator's `sequence` has already been wrapped to 0 before the spin-wait
starts, so the state after the failing call differs from the state before
it (4095 became 0). -/
theorem generate_error_state_cex :
    generate gFull ⟨some 5, [⟨1001, some 5⟩]⟩ =
      some ({ gFull with sequence := 0 }, .error .WaitForNextPeriodTimeout) ∧
    gFull.sequence = 4095 ∧ ({ gFull with sequence := 0 } : Snowflake) ≠ gFull := by
  decide

/-- C4 (amended): whenever `generate` returns an error, `last_timestamp`
is unchanged, and the whole state is unchanged except that on the
wait-timeout path the `sequence` has already been wrapped to 0. -/
theorem generate_error_state (g : Snowflake) (inp : GenInput) (g' : Snowflake)
    (e : SnowflakeError) (h : generate g inp = some (g', .error e)) :
    g'.last_timestamp = g.last_timestamp ∧
    (g' = g ∨ (e = .WaitForNextPeriodTimeout ∧ g' = { g with sequence := 0 })) := by
  rcases generate_some_inv h with ⟨e', hc, hg, hr⟩ | ⟨now, hc, hw⟩
  · subst hg
    exact ⟨rfl, Or.inl rfl⟩
  · rcases generateWith_shape hw with
      ⟨_, _, _, hr⟩ | ⟨_, _, hg, _⟩ | ⟨_, _, _, hr⟩ | ⟨_, _, v, _, _, hr⟩ |
      ⟨_, _, e2, hsp, hg, hr⟩ | ⟨_, _, hr⟩
    · exact absurd hr (by simp)
    · subst hg
      exact ⟨rfl, Or.inl rfl⟩
    · exact absurd hr (by simp)
    · exact absurd hr (by simp)
    · obtain ⟨he2, -⟩ := spinWait_error_inv hsp
      subst hg
      simp only [Except.error.injEq] at hr
      exact ⟨rfl, Or.inr ⟨hr.trans he2, rfl⟩⟩
    · exact absurd hr (by simp)

/-- Witness for C4 (amended): a backward-wrap failure leaves the
generator exactly as it was. -/
theorem generate_error_state_witness :
    gFull.last_timestamp = gFull.last_timestamp ∧
    (gFull = gFull ∨ (SnowflakeError.ClockMoveBackwards = .WaitForNextPeriodTimeout ∧
      gFull = { gFull with sequence := 0 })) :=
  generate_error_state gFull ⟨some 3, []⟩ gFull .ClockMoveBackwards (by decide)

/-- C5: every `generate` call on a well-formed generator (whatever its
outcome) preserves well-formedness — in particular
`sequence ≤ max_sequence` — changes `sequence` only to the masked
candidate or to 0 or not at all, never changes `worker_id`, `epoch`,
`timeout_millis` or the derived layout fields, and never decreases
`last_timestamp`; `last_timestamp` moves only to a strictly larger
sampled `now` (and is untouched on the Backward path). -/
theorem generate_invariants (g : Snowflake) (wib : Nat) (inp : GenInput)
    (g' : Snowflake) (r : Except SnowflakeError Nat) (hwf : WF g wib)
    (h : generate g inp = some (g', r)) :
    WF g' wib ∧
    (g'.sequence = possible_sequence g ∨ g'.sequence = 0 ∨ g'.sequence = g.sequence) ∧
    g'.worker_id = g.worker_id ∧ g'.epoch = g.epoch ∧
    g'.timeout_millis = g.timeout_millis ∧ g'.max_sequence = g.max_sequence ∧
    g'.timestamp_shift = g.timestamp_shift ∧ g'.worker_id_shift = g.worker_id_shift ∧
    g.last_timestamp ≤ g'.last_timestamp ∧
    (g'.last_timestamp = g.last_timestamp ∨
      (g.last_timestamp < g'.last_timestamp ∧
        (current_timestamp_millis_since_epoch g.epoch inp.initial = .ok g'.last_timestamp ∨
         ∃ s ∈ inp.spin,
           current_timestamp_millis_since_epoch g.epoch s.reading = .ok g'.last_timestamp))) := by
  rcases generate_some_inv h with ⟨e', hc, hg, hr⟩ | ⟨now, hc, hw⟩
  · subst hg
    exact ⟨hwf, Or.inr (Or.inr rfl), rfl, rfl, rfl, rfl, rfl, rfl, le_refl _, Or.inl rfl⟩
  · rcases generateWith_shape hw with
      ⟨hlt, hpos, hg, hr⟩ | ⟨_, _, hg, hr⟩ | ⟨heq, hpos, hg, hr⟩ |
      ⟨heq, hzero, v, hsp, hg, hr⟩ | ⟨heq, hzero, e2, hsp, hg, hr⟩ | ⟨hgt, hg, hr⟩
    · subst hg
      exact ⟨hwf.of_seq (possible_sequence_le g), Or.inl rfl, rfl, rfl, rfl, rfl, rfl,
        rfl, le_refl _, Or.inl rfl⟩
    · subst hg
      exact ⟨hwf, Or.inr (Or.inr rfl), rfl, rfl, rfl, rfl, rfl, rfl, le_refl _, Or.inl rfl⟩
    · subst hg
      refine ⟨hwf.of_seq_last (possible_sequence_le g), Or.inl rfl, rfl, rfl, rfl, rfl,
        rfl, rfl, ?_, ?_⟩
      · show g.last_timestamp ≤ now
        omega
      · exact Or.inl heq
    · subst hg
      have hvgt0 := spinWait_ok_gt hsp
      have hvgt : g.last_timestamp < v := hvgt0
      refine ⟨hwf.of_seq_last (Nat.zero_le _), Or.inr (Or.inl rfl), rfl, rfl, rfl, rfl,
        rfl, rfl, le_of_lt hvgt, Or.inr ⟨hvgt, ?_⟩⟩
      rcases spinWait_ok_source hsp with hvnow | ⟨s, hsmem, hsc⟩
      · omega
      · have hsc' : current_timestamp_millis_since_epoch g.epoch s.reading = .ok v := hsc
        exact Or.inr ⟨s, hsmem, hsc'⟩
    · subst hg
      exact ⟨hwf.of_seq (Nat.zero_le _), Or.inr (Or.inl rfl), rfl, rfl, rfl, rfl, rfl,
        rfl, le_refl _, Or.inl rfl⟩
    · subst hg
      exact ⟨hwf.of_seq_last (Nat.zero_le _), Or.inr (Or.inl rfl), rfl, rfl, rfl, rfl,
        rfl, rfl, le_of_lt hgt, Or.inr ⟨hgt, Or.inl hc⟩⟩

/-- Witness for C5: instantiating the invariants at a concrete forward
step of the demo generator. -/
theorem generate_invariants_witness :
    ({ gDemo with last_timestamp := 7, sequence := 0 } : Snowflake).worker_id =
      gDemo.worker_id :=
  (generate_invariants gDemo 10 ⟨some 7, []⟩
    { gDemo with last_timestamp := 7, sequence := 0 } (.ok 29364224)
    (by constructor <;> decide) (by decide)).2.2.1

/-- C6: `with_config` validates in a fixed order with the first failing
check winning: a `worker_id_bits` outside `[MIN_BITS, MAX_ADJUSTABLE_BITS)`
yields the argument error carrying that range, whatever the other
arguments and the clock; otherwise a `worker_id` above
`2 ^ worker_id_bits - 1` yields the argument error carrying
`[0, max_worker_id]`, for every clock reading (so before any clock read);
otherwise an epoch at or after the current time yields the invalid-epoch
error; `with_config 1024` with 10 worker bits fails with the argument
error; and on success the generator starts with `last_timestamp = 0` and
`sequence = 0`. -/
theorem with_config_validation :
    (∀ wid wib t ep sys, ¬ (MIN_BITS ≤ wib ∧ wib < MAX_ADJUSTABLE_BITS) →
      with_config wid (some wib) t ep sys =
        .error (.ArgumentError (invalidBitsMsg wib))) ∧
    (∀ wid wib t ep sys, MIN_BITS ≤ wib → wib < MAX_ADJUSTABLE_BITS →
      (1 <<< wib) - 1 < wid →
      with_config wid (some wib) t ep sys =
        .error (.ArgumentError (invalidWorkerIdMsg wid ((1 <<< wib) - 1)))) ∧
    (∀ t ep sys, with_config 1024 (some 10) t ep sys =
      .error (.ArgumentError (invalidWorkerIdMsg 1024 1023))) ∧
    (∀ wid wib t ep m, MIN_BITS ≤ wib → wib < MAX_ADJUSTABLE_BITS →
      wid ≤ (1 <<< wib) - 1 → m < U64_MOD → m ≤ ep →
      with_config wid (some wib) t (some ep) (some m) = .error .InvalidEpoch) ∧
    (∀ wid wib t ep m, MIN_BITS ≤ wib → wib < MAX_ADJUSTABLE_BITS →
      wid ≤ (1 <<< wib) - 1 → m < U64_MOD → ep < m →
      with_config wid (some wib) t (some ep) (some m) =
        .ok { epoch := ep, last_timestamp := 0, worker_id := wid, sequence := 0,
              timeout_millis := t,
              max_sequence := (1 <<< (MAX_ADJUSTABLE_BITS - wib)) - 1,
              timestamp_shift := wib + (MAX_ADJUSTABLE_BITS - wib),
              worker_id_shift := MAX_ADJUSTABLE_BITS - wib }) := by
  refine ⟨?_, ?_, ?_, ?_, ?_⟩
  · intro wid wib t ep sys hbad
    simp only [with_config, Option.getD_some]
    rw [if_pos hbad]
  · intro wid wib t ep sys h1 h2 h3
    simp only [with_config, Option.getD_some]
    rw [if_neg (not_not_intro ⟨h1, h2⟩), if_pos h3]
  · intro t ep sys
    simp only [with_config, Option.getD_some]
    rw [if_neg (by decide), if_pos (by decide)]
    rfl
  · intro wid wib t ep m h1 h2 h3 hm hle
    have ht : timestamp_millis (some m) = .ok m := by
      simp only [timestamp_millis]
      rw [if_pos hm]
    simp only [with_config, Option.getD_some, ht]
    rw [if_neg (not_not_intro ⟨h1, h2⟩), if_neg (not_lt.mpr h3), if_pos hle]
  · intro wid wib t ep m h1 h2 h3 hm hlt
    have ht : timestamp_millis (some m) = .ok m := by
      simp only [timestamp_millis]
      rw [if_pos hm]
    simp only [with_config, Option.getD_some, ht]
    rw [if_neg (not_not_intro ⟨h1, h2⟩), if_neg (not_lt.mpr h3), if_neg (not_le.mpr hlt)]

/-- Witness for C6: the concrete scenario `with_config(1024, 10 bits)`
fails with the argument error even when the clock read itself would
fail. -/
theorem with_config_validation_witness :
    with_config 1024 (some 10) none none none =
      .error (.ArgumentError (invalidWorkerIdMsg 1024 1023)) :=
  with_config_validation.2.2.1 none none none

/-- C7: every successful `generate` result carries the generator's
`worker_id` recoverably in the worker bit field, and two well-formed
generators with the same bit layout but different `worker_id` values
never emit the same ID. -/
theorem generate_worker_field (g : Snowflake) (wib : Nat) (inp : GenInput)
    (g' : Snowflake) (id : Nat) (hwf : WF g wib)
    (h : generate g inp = some (g', .ok id)) :
    (id >>> g.worker_id_shift) &&& (2 ^ wib - 1) = g.worker_id ∧
    ∀ g2 inp2 g2' id2, WF g2 wib → g2.worker_id ≠ g.worker_id →
      generate g2 inp2 = some (g2', .ok id2) → id ≠ id2 := by
  obtain ⟨ts, seq, hseq, hid⟩ := generate_ok_pack h
  have h1 : (id >>> g.worker_id_shift) &&& (2 ^ wib - 1) = g.worker_id := by
    rw [hid]
    exact pack_worker hwf ts seq hseq
  refine ⟨h1, ?_⟩
  intro g2 inp2 g2' id2 hwf2 hne h2 hcontra
  obtain ⟨ts2, seq2, hseq2, hid2⟩ := generate_ok_pack h2
  have h3 : (id2 >>> g2.worker_id_shift) &&& (2 ^ wib - 1) = g2.worker_id := by
    rw [hid2]
    exact pack_worker hwf2 ts2 seq2 hseq2
  have hshift : g2.worker_id_shift = g.worker_id_shift := by
    rw [hwf2.shift_w, hwf.shift_w]
  apply hne
  calc g2.worker_id = (id2 >>> g2.worker_id_shift) &&& (2 ^ wib - 1) := h3.symm
    _ = (id >>> g.worker_id_shift) &&& (2 ^ wib - 1) := by rw [hcontra, hshift]
    _ = g.worker_id := h1

/-- Witness for C7: the first ID of the demo generator decomposes back
into its worker ID 1 via the documented shift and mask. -/
theorem generate_worker_field_witness :
    ((29364224 : Nat) >>> gDemo.worker_id_shift) &&& (2 ^ 10 - 1) = gDemo.worker_id :=
  (generate_worker_field gDemo 10 ⟨some 7, []⟩
    { gDemo with last_timestamp := 7, sequence := 0 } 29364224
    (by constructor <;> decide) (by decide)).1

/-- Counterexample to C8 as stated: a failed clock read (the
`duration_since(UNIX_EPOCH)` error) is surfaced by `generate` as
`ClockMoveBackwards`, not as a kind distinct from it; only the
millisecond conversion failure gets the distinct kind. -/
theorem clock_error_kind_cex :
    generate gDemo ⟨none, []⟩ = some (gDemo, .error .ClockMoveBackwards) ∧
    SnowflakeError.ClockMoveBackwards ≠ SnowflakeError.FailedConvertToMillis := by
  decide

/-- C8 (amended): a failure to convert the reading to a `u64` millisecond
count is surfaced by `generate` as `FailedConvertToMillis`, a kind
distinct from `ClockMoveBackwards`; a failure to read the time source,
however, is surfaced as `ClockMoveBackwards` itself. -/
theorem clock_error_kinds (g : Snowflake) (inp : GenInput) :
    (inp.initial = none → generate g inp = some (g, .error .ClockMoveBackwards)) ∧
    (∀ m, inp.initial = some m → U64_MOD ≤ m →
      generate g inp = some (g, .error .FailedConvertToMillis)) ∧
    SnowflakeError.FailedConvertToMillis ≠ SnowflakeError.ClockMoveBackwards := by
  refine ⟨?_, ?_, by decide⟩
  · intro hnone
    apply generate_init_error
    have hts : timestamp_millis none = .error .ClockMoveBackwards := rfl
    simp only [current_timestamp_millis_since_epoch, hnone, hts]
  · intro m hsome hge
    apply generate_init_error
    have hts : timestamp_millis (some m) = .error .FailedConvertToMillis := by
      simp only [timestamp_millis]
      rw [if_neg (not_lt.mpr hge)]
    simp only [current_timestamp_millis_since_epoch, hsome, hts]

/-- Witness for C8 (amended): a reading of `2 ^ 64` ms does not fit a
`u64` and is surfaced as the conversion-failure kind. -/
theorem clock_error_kinds_witness :
    generate gDemo ⟨some (2 ^ 64), []⟩ = some (gDemo, .error .FailedConvertToMillis) :=
  (clock_error_kinds gDemo ⟨some (2 ^ 64), []⟩).2.1 (2 ^ 64) rfl (by decide)

/-- Counterexample to C9 as stated: a re-sample clock read inside the
spin-wait fails (first spin iteration reads `none`), yet the call
continues and succeeds — the error is ignored, not returned. -/
theorem spin_error_swallowed_cex :
    (∃ s ∈ ([⟨1, none⟩, ⟨2, some 9⟩] : List SpinSample),
      current_timestamp_millis_since_epoch gFull.epoch s.reading =
        .error .ClockMoveBackwards) ∧
    generate gFull ⟨some 5, [⟨1, none⟩, ⟨2, some 9⟩]⟩ =
      some ({ gFull with sequence := 0, last_timestamp := 9 }, .ok 37752832) := by
  decide

/-- C9 (amended): an error from the initial clock read is returned to the
caller unchanged, but an error from a re-sample inside the
sequence-exhaustion spin-wait is silently dropped — the loop keeps the
previous `now` and continues. -/
theorem generate_error_propagation (g : Snowflake) (inp : GenInput) :
    (∀ e, current_timestamp_millis_since_epoch g.epoch inp.initial = .error e →
      generate g inp = some (g, .error e)) ∧
    (∀ (s : SpinSample) (rest : List SpinSample) (now : Nat) (e : SnowflakeError),
      ¬ g.last_timestamp < now →
      timedOut g.timeout_millis s.elapsed = false →
      current_timestamp_millis_since_epoch g.epoch s.reading = .error e →
      spinWait g (s :: rest) now = spinWait g rest now) := by
  constructor
  · intro e hc
    exact generate_init_error hc
  · intro s rest now e hlt ht hc
    rw [spinWait_eq, if_neg hlt]
    simp only [ht, Bool.false_eq_true, if_false]
    unfold resample
    rw [hc, spinWait_eq]

/-- Witness for C9 (amended): dropping the failing first spin iteration
of the counterexample trace leaves the spin-wait result unchanged. -/
theorem generate_error_propagation_witness :
    spinWait gFull [⟨1, none⟩, ⟨2, some 9⟩] 5 = spinWait gFull [⟨2, some 9⟩] 5 :=
  (generate_error_propagation gFull ⟨some 5, [⟨1, none⟩, ⟨2, some 9⟩]⟩).2
    ⟨1, none⟩ [⟨2, some 9⟩] 5 .ClockMoveBackwards (by decide) (by decide) (by decide)

/-- C10: the fluent builder defaults the worker ID to 0, and
`Snowflake::builder().build()` with a clock reading after the default
epoch constructs a generator whose `worker_id` field is 0 (passing the
worker-ID validation since `0 ≤ max_worker_id`). -/
theorem builder_default_worker_id (m : Nat) (hm : m < U64_MOD)
    (hep : EPOCH_MILLIS < m) :
    Snowflake.builder.worker_id = 0 ∧
    (Snowflake.builder).build (some m) =
      .ok { epoch := EPOCH_MILLIS, last_timestamp := 0, worker_id := 0, sequence := 0,
            timeout_millis := some TIMEOUT_MILLIS, max_sequence := 4095,
            timestamp_shift := 22, worker_id_shift := 12 } := by
  refine ⟨rfl, ?_⟩
  have ht : timestamp_millis (some m) = .ok m := by
    simp only [timestamp_millis]
    rw [if_pos hm]
  simp only [SnowflakeBuilder.build, Snowflake.builder, with_config, Option.getD_some, ht]
  rw [if_neg (by decide), if_neg (by decide), if_neg (not_le.mpr hep)]
  rfl

/-- Witness for C10: building at one millisecond past the default epoch
yields the default generator with worker ID 0. -/
theorem builder_default_worker_id_witness :
    Snowflake.builder.worker_id = 0 ∧
    (Snowflake.builder).build (some (EPOCH_MILLIS + 1)) =
      .ok { epoch := EPOCH_MILLIS, last_timestamp := 0, worker_id := 0, sequence := 0,
            timeout_millis := some TIMEOUT_MILLIS, max_sequence := 4095,
            timestamp_shift := 22, worker_id_shift := 12 } :=
  builder_default_worker_id (EPOCH_MILLIS + 1) (by decide) (by decide)

end Snow
